import Mathlib

/-!
Shallow embedding of the graphik rasterizer (src/lib.rs).

The buffer is a list of packed u32 colors together with its dimensions.
Rust usize values are modelled as Nat, i32 values as Int.  The two casts
that the source performs (`as usize`, `as i32`) are modelled exactly,
with the wrap-around they have in Rust; arithmetic on i32 values is
modelled as exact Int arithmetic, and every theorem that depends on it
carries range hypotheses under which no 32-bit overflow occurs.
Rust integer division truncates toward zero, so it is Int.tdiv here.
Division by zero panics in Rust; the one function that can divide by
zero (triangle_fill) therefore returns an Option, with none for panic.
-/

namespace Graphik

set_option maxHeartbeats 1000000
set_option maxRecDepth 8192

/-- Cast of an i32 value to usize, as Rust does it: sign-extend then
reinterpret, i.e. reduce modulo 2^64. -/
def usizeOfI32 (x : Int) : Nat := (x % (2 ^ 64 : Int)).toNat

/-- Cast of a usize value to i32, as Rust does it: truncate to the low
32 bits, reinterpreted as a signed value. -/
def i32OfUsize (n : Nat) : Int := (((n : Int) + 2 ^ 31) % 2 ^ 32) - 2 ^ 31

/-- The Rust half-open range lo..hi over i32, as the list of its
elements in order (empty when hi <= lo). -/
def intRange (lo hi : Int) : List Int := (List.range (hi - lo).toNat).map (fun i => lo + i)

/-- The Rust inclusive range lo..=hi over i32 (empty when hi < lo). -/
def intRangeIncl (lo hi : Int) : List Int := intRange lo (hi + 1)

/-- Store color c at every index of idxs in turn (List.set is a no-op
out of bounds, matching in-bounds-guarded Rust writes). -/
def setMany (l : List Nat) (c : Nat) (idxs : List Nat) : List Nat :=
  idxs.foldl (fun acc i => acc.set i c) l

/-- The pixel buffer: struct GraphikBuffer. -/
structure GraphikBuffer where
  width : Nat
  height : Nat
  buffer : List Nat
  deriving Repr, DecidableEq

/-- GraphikBuffer::new. -/
def GraphikBuffer.new (width height : Nat) : GraphikBuffer :=
  { width := width, height := height, buffer := List.replicate (width * height) 0 }

/-- fn get_center: ((canvas - object) / 2) as i32, where the subtraction
is usize subtraction (wrapping modulo 2^64 when object > canvas). -/
def get_center (canvas object : Nat) : Int :=
  i32OfUsize (((((canvas : Int) - (object : Int)) % (2 ^ 64 : Int)).toNat) / 2)

/-- struct GraphikRect (fields per spec section 3; used by rect_fill). -/
structure GraphikRect where
  x0 : Int
  y0 : Int
  width : Nat
  height : Nat
  color : Nat
  center : Bool
  deriving Repr, DecidableEq

/-- Modelled from the spec: GraphikRect::origin lives in the missing
module graphik_rect; per the data flow of section 2, the centering step
mutates the descriptor's origin, so origin(x0, y0) sets both origin
coordinates. -/
def GraphikRect.origin (r : GraphikRect) (x0 y0 : Int) : GraphikRect :=
  { r with x0 := x0, y0 := y0 }

/-- struct GraphikCircle (fields per spec section 3; used by circle_fill). -/
structure GraphikCircle where
  x0 : Int
  y0 : Int
  radius : Nat
  color : Nat
  center : Bool
  deriving Repr, DecidableEq

/-- Modelled from the spec: GraphikCircle::origin lives in the missing
module graphik_circle; it sets the circle's origin coordinates. -/
def GraphikCircle.origin (c : GraphikCircle) (x0 y0 : Int) : GraphikCircle :=
  { c with x0 := x0, y0 := y0 }

/-- struct GraphikTriangle (fields per spec section 3; used by
triangle_fill). -/
structure GraphikTriangle where
  x1 : Int
  y1 : Int
  x2 : Int
  y2 : Int
  x3 : Int
  y3 : Int
  color : Nat
  deriving Repr, DecidableEq

/-- struct GraphikLine (fields per spec section 3; used by line_draw). -/
structure GraphikLine where
  x0 : Int
  y0 : Int
  x1 : Int
  y1 : Int
  color : Nat
  center : Bool
  vertical : Bool
  horizontal : Bool
  deriving Repr, DecidableEq

/-- Modelled from the spec: GraphikLine::vertical lives in the missing
module graphik_line; per spec section 4.4 it pins both endpoints' x
coordinate to the given value and takes the two y endpoints as passed
(the call site passes the line's own y0 and y1, leaving them unchanged). -/
def GraphikLine.setVertical (l : GraphikLine) (x ya yb : Int) : GraphikLine :=
  { l with x0 := x, x1 := x, y0 := ya, y1 := yb }

/-- Modelled from the spec: GraphikLine::horizontal lives in the missing
module graphik_line; per spec section 4.4 it pins both endpoints' y
coordinate to the given value and takes the two x endpoints as passed. -/
def GraphikLine.setHorizontal (l : GraphikLine) (y xa xb : Int) : GraphikLine :=
  { l with y0 := y, y1 := y, x0 := xa, x1 := xb }

namespace GraphikBuilder

/-- GraphikBuilder::fill: set every pixel to color. -/
def fill (b : GraphikBuffer) (color : Nat) : GraphikBuffer :=
  { b with buffer := b.buffer.map (fun _ => color) }

/-- The nested write loops of GraphikBuilder::rect_fill, over the raw
pixel list; w and h are the buffer dimensions (constant throughout the
loop in the source). Coordinates add in usize, hence the modulo. -/
def rectFillLoop (w h : Nat) (rect : GraphikRect) (buf : List Nat) : List Nat :=
  (List.range rect.height).foldl (fun acc dy =>
    let y := (usizeOfI32 rect.y0 + dy) % 2 ^ 64
    if y < h then
      (List.range rect.width).foldl (fun acc2 dx =>
        let x := (usizeOfI32 rect.x0 + dx) % 2 ^ 64
        if x < w then acc2.set (y * w + x) rect.color else acc2) acc
    else acc) buf

/-- GraphikBuilder::rect_fill. Returns the updated buffer together with
the (possibly re-centered) rectangle, since the source mutates the
descriptor in place. -/
def rect_fill (b : GraphikBuffer) (rect : GraphikRect) : GraphikBuffer × GraphikRect :=
  let r := if rect.center then
      rect.origin (get_center b.width rect.width) (get_center b.height rect.height)
    else rect
  ({ b with buffer := rectFillLoop b.width b.height r b.buffer }, r)

/-- The nested scan loops of GraphikBuilder::circle_fill over the
half-open bounding box, with the source's guards and squared-distance
test. The radius casts (radius as i32, (radius*radius) as i32) are
modelled exactly. -/
def circleFillLoop (w h : Nat) (c : GraphikCircle) (buf : List Nat) : List Nat :=
  let r32 : Int := i32OfUsize c.radius
  let rr : Int := i32OfUsize ((c.radius * c.radius) % 2 ^ 64)
  (intRange (c.y0 - r32) (c.y0 + r32)).foldl (fun acc y =>
    if 0 ≤ y ∧ y < (h : Int) then
      (intRange (c.x0 - r32) (c.x0 + r32)).foldl (fun acc2 x =>
        if 0 ≤ x ∧ x < (w : Int) then
          let dx := x - c.x0
          let dy := y - c.y0
          if dx * dx + dy * dy ≤ rr then
            acc2.set (usizeOfI32 y * w + usizeOfI32 x) c.color
          else acc2
        else acc2) acc
    else acc) buf

/-- GraphikBuilder::circle_fill. Returns the updated buffer together
with the (possibly re-centered) circle. -/
def circle_fill (b : GraphikBuffer) (circle : GraphikCircle) : GraphikBuffer × GraphikCircle :=
  let c := if circle.center then
      circle.origin (i32OfUsize (b.width / 2)) (i32OfUsize (b.height / 2))
    else circle
  ({ b with buffer := circleFillLoop b.width b.height c b.buffer }, c)

/-- One scanline write of GraphikBuilder::triangle_fill: for x in
s1..=s2, write color at (x, y) when x is within the buffer width (y was
already checked against the height by the caller, as in the source). -/
def fillSpan (w : Nat) (color : Nat) (y s1 s2 : Int) (buf : List Nat) : List Nat :=
  (intRangeIncl s1 s2).foldl (fun acc x =>
    if 0 ≤ x ∧ x < (w : Int) then
      acc.set (usizeOfI32 (y * (w : Int) + x)) color
    else acc) buf

/-- Pass 1 of GraphikBuilder::triangle_fill (top to middle), iterating
the given scanlines. The guards test exactly the divisors they divide
by, so this pass cannot panic. -/
def pass1Loop (w h : Nat) (t : GraphikTriangle) : List Int → List Nat → List Nat
  | [], buf => buf
  | y :: ys, buf =>
    if 0 ≤ y ∧ y < (h : Int) then
      let s1 := if t.y2 - t.y1 ≠ 0 then
          Int.tdiv ((y - t.y1) * (t.x2 - t.x1)) (t.y2 - t.y1) + t.x1
        else t.x1
      let s2 := if t.y3 - t.y1 ≠ 0 then
          Int.tdiv ((y - t.y1) * (t.x3 - t.x1)) (t.y3 - t.y1) + t.x1
        else t.x1
      pass1Loop w h t ys (fillSpan w t.color y s1 s2 buf)
    else pass1Loop w h t ys buf

/-- Pass 2 of GraphikBuilder::triangle_fill (middle to bottom). The
source guards its first division with dy12 (y2 - y1) but divides by
dy32 (y2 - y3); when that divisor is zero Rust panics, modelled here by
returning none. The second division is guarded by its own divisor dy31. -/
def pass2Loop (w h : Nat) (t : GraphikTriangle) : List Int → List Nat → Option (List Nat)
  | [], buf => some buf
  | y :: ys, buf =>
    if 0 ≤ y ∧ y < (h : Int) then
      if t.y2 - t.y1 ≠ 0 then
        if t.y2 - t.y3 = 0 then none
        else
          let s1 := Int.tdiv ((y - t.y3) * (t.x2 - t.x3)) (t.y2 - t.y3) + t.x3
          let s2 := if t.y1 - t.y3 ≠ 0 then
              Int.tdiv ((y - t.y3) * (t.x1 - t.x3)) (t.y1 - t.y3) + t.x3
            else t.x3
          pass2Loop w h t ys (fillSpan w t.color y s1 s2 buf)
      else
        let s1 := t.x3
        let s2 := if t.y1 - t.y3 ≠ 0 then
            Int.tdiv ((y - t.y3) * (t.x1 - t.x3)) (t.y1 - t.y3) + t.x3
          else t.x3
        pass2Loop w h t ys (fillSpan w t.color y s1 s2 buf)
    else pass2Loop w h t ys buf

/-- GraphikBuilder::triangle_fill: pass 1 over y1..=y2, then pass 2
over y2..=y3; none models the division-by-zero panic of pass 2. -/
def triangle_fill (b : GraphikBuffer) (t : GraphikTriangle) : Option GraphikBuffer :=
  let buf1 := pass1Loop b.width b.height t (intRangeIncl t.y1 t.y2) b.buffer
  match pass2Loop b.width b.height t (intRangeIncl t.y2 t.y3) buf1 with
  | none => none
  | some buf2 => some { b with buffer := buf2 }

/-- GraphikBuilder::process_line_vertices: when center is set, the
vertical flag is tested first and the horizontal flag only in the else
branch. -/
def process_line_vertices (l : GraphikLine) (width height : Nat) : GraphikLine :=
  if l.center then
    if l.vertical then
      l.setVertical (i32OfUsize (width / 2)) l.y0 l.y1
    else if l.horizontal then
      l.setHorizontal (i32OfUsize (height / 2)) l.x0 l.x1
    else l
  else l

/-- The while loop of GraphikBuilder::line_draw, with explicit fuel;
none when the fuel runs out before the loop condition fails (the caller
passes enough fuel for every terminating run it is asked about). -/
def lineLoop (w h : Nat) (color : Nat) (x1 y1 dx dy sx sy : Int) :
    Nat → Int → Int → Int → List Nat → Option (List Nat)
  | fuel, x0, y0, err, buf =>
    if x0 = x1 ∧ y0 = y1 then some buf
    else match fuel with
      | 0 => none
      | fuel' + 1 =>
        let buf' := if 0 ≤ x0 ∧ x0 < (w : Int) ∧ 0 ≤ y0 ∧ y0 < (h : Int) then
            buf.set (usizeOfI32 y0 * w + usizeOfI32 x0) color
          else buf
        let e2 := 2 * err
        let x0' := if e2 > -dy then x0 + sx else x0
        let err1 := if e2 > -dy then err - dy else err
        let y0' := if e2 < dx then y0 + sy else y0
        let err2 := if e2 < dx then err1 + dx else err1
        lineLoop w h color x1 y1 dx dy sx sy fuel' x0' y0' err2 buf'

/-- GraphikBuilder::line_draw: pre-process the vertices, then run the
Bresenham loop. Returns the processed line too, since the source
mutates the descriptor. -/
def line_draw (b : GraphikBuffer) (line : GraphikLine) : Option GraphikBuffer × GraphikLine :=
  let l := process_line_vertices line b.width b.height
  let dx := |l.x1 - l.x0|
  let dy := |l.y1 - l.y0|
  let sx : Int := if l.x0 < l.x1 then 1 else -1
  let sy : Int := if l.y0 < l.y1 then 1 else -1
  let err := dx - dy
  let fuel := (dx + dy).toNat + 1
  match lineLoop b.width b.height l.color l.x1 l.y1 dx dy sx sy fuel l.x0 l.y0 err b.buffer with
  | none => (none, l)
  | some buf => (some { b with buffer := buf }, l)

end GraphikBuilder

/-- The error type of the serializer. -/
inductive Error where
  | FileOpenError
  | FileWriteError
  deriving Repr, DecidableEq

/-- The three bytes the serializer emits for one packed pixel:
pixel & 0xff, (pixel >> 8) & 0xff, (pixel >> 16) & 0xff. -/
def pixelBytes (p : Nat) : List Nat :=
  [p % 256, (p / 2 ^ 8) % 256, (p / 2 ^ 16) % 256]

/-- The ASCII bytes of the header format!("P6\n\x7b\x7d \x7b\x7d 255\n", width, height). -/
def headerBytes (width height : Nat) : List Nat :=
  ("P6\n" ++ toString width ++ " " ++ toString height ++ " 255\n").data.map Char.toNat

/-- The full byte stream of a successful export: header then the
pixels in buffer (row-major) order, three bytes each. -/
def ppmBytes (b : GraphikBuffer) : List Nat :=
  headerBytes b.width b.height ++ b.buffer.flatMap pixelBytes

/-- Outcome oracle for the file system: whether the open succeeds, and
whether the i-th write_all call (0 = header, i+1 = pixel i) succeeds. -/
structure FsOutcome where
  openOk : Bool
  writeOk : Nat → Bool

/-- The pixel-writing loop of GraphikBuilder::save_as_ppm: one
write_all call per pixel, in order; the first failing call aborts with
FileWriteError, leaving the bytes already written in place. -/
def writePixelsLoop (writeOk : Nat → Bool) : List Nat → Nat → List Nat → Except Error Unit × List Nat
  | [], _, acc => (Except.ok (), acc)
  | p :: rest, i, acc =>
    if writeOk i then writePixelsLoop writeOk rest (i + 1) (acc ++ pixelBytes p)
    else (Except.error Error.FileWriteError, acc)

namespace GraphikBuilder

/-- GraphikBuilder::save_as_ppm over the file-system oracle: a failed
open yields FileOpenError with nothing written; then write_header is
write_all call 0; then one write_all call per pixel. The second
component is the byte content of the destination file afterwards. -/
def save_as_ppm (b : GraphikBuffer) (fs : FsOutcome) : Except Error Unit × List Nat :=
  if fs.openOk then
    if fs.writeOk 0 then
      writePixelsLoop fs.writeOk b.buffer 1 (headerBytes b.width b.height)
    else (Except.error Error.FileWriteError, [])
  else (Except.error Error.FileOpenError, [])

end GraphikBuilder

/-! Helper lemmas. -/

theorem usizeOfI32_small {x : Int} (h0 : 0 ≤ x) (h1 : x < 2 ^ 64) :
    usizeOfI32 x = x.toNat := by
  unfold usizeOfI32
  rw [Int.emod_eq_of_lt h0 h1]

theorem i32OfUsize_small {n : Nat} (h : n < 2 ^ 31) : i32OfUsize n = n := by
  unfold i32OfUsize
  have h1 : (0 : Int) ≤ (n : Int) + 2 ^ 31 := by positivity
  have h2 : (n : Int) + 2 ^ 31 < 2 ^ 32 := by
    have : (n : Int) < 2 ^ 31 := by exact_mod_cast h
    linarith
  rw [Int.emod_eq_of_lt h1 h2]
  ring

theorem intRangeIncl_eq_nil {s1 s2 : Int} (h : s2 < s1) : intRangeIncl s1 s2 = [] := by
  unfold intRangeIncl intRange
  have : (s2 + 1 - s1).toNat = 0 := Int.toNat_of_nonpos (by linarith)
  rw [this]
  rfl

theorem setMany_nil (l : List Nat) (c : Nat) : setMany l c [] = l := rfl

theorem setMany_cons (l : List Nat) (c i : Nat) (idxs : List Nat) :
    setMany l c (i :: idxs) = setMany (l.set i c) c idxs := rfl

theorem setMany_append (l : List Nat) (c : Nat) (a b : List Nat) :
    setMany l c (a ++ b) = setMany (setMany l c a) c b := by
  unfold setMany
  rw [List.foldl_append]

theorem length_setMany (idxs : List Nat) (l : List Nat) (c : Nat) :
    (setMany l c idxs).length = l.length := by
  induction idxs generalizing l with
  | nil => rfl
  | cons i idxs ih => rw [setMany_cons, ih, List.length_set]

theorem getElem?_setMany (idxs : List Nat) (l : List Nat) (c j : Nat) :
    (setMany l c idxs)[j]? = if j ∈ idxs ∧ j < l.length then some c else l[j]? := by
  induction idxs generalizing l with
  | nil => simp [setMany]
  | cons i idxs ih =>
    rw [setMany_cons, ih]
    rcases Nat.lt_or_ge j l.length with hlen | hlen
    · by_cases hj : j ∈ idxs
      · simp [hj, hlen]
      · by_cases hij : i = j
        · subst hij
          simp [hj, hlen, List.getElem?_set_self hlen]
        · simp [hj, hij, hlen, List.getElem?_set_ne hij, Ne.symm hij]
    · have h1 : l[j]? = none := List.getElem?_eq_none hlen
      have h2 : (l.set i c)[j]? = none := by
        apply List.getElem?_eq_none
        simpa using hlen
      simp [h1, h2, Nat.not_lt.mpr hlen]

theorem foldl_setIf {α : Type} (L : List α) (p : α → Prop) [DecidablePred p]
    (f : α → Nat) (c : Nat) (l : List Nat) :
    L.foldl (fun acc a => if p a then acc.set (f a) c else acc) l
      = setMany l c ((L.filter (fun a => decide (p a))).map f) := by
  induction L generalizing l with
  | nil => rfl
  | cons a L ih =>
    by_cases hp : p a
    · rw [List.foldl_cons, if_pos hp, List.filter_cons, if_pos (decide_eq_true hp),
        List.map_cons, setMany_cons]
      exact ih (l.set (f a) c)
    · rw [List.foldl_cons, if_neg hp, List.filter_cons, if_neg (by simpa using hp)]
      exact ih l

theorem foldl_over_setMany {α : Type} (L : List α) (F : List Nat → α → List Nat)
    (q : α → Prop) [DecidablePred q] (g : α → List Nat) (c : Nat)
    (hF : ∀ l a, F l a = if q a then setMany l c (g a) else l) (l : List Nat) :
    L.foldl F l = setMany l c ((L.filter (fun a => decide (q a))).flatMap g) := by
  induction L generalizing l with
  | nil => rfl
  | cons a L ih =>
    by_cases hq : q a
    · rw [List.foldl_cons, hF, if_pos hq, List.filter_cons, if_pos (decide_eq_true hq),
        List.flatMap_cons, setMany_append]
      exact ih (setMany l c (g a))
    · rw [List.foldl_cons, hF, if_neg hq, List.filter_cons, if_neg (by simpa using hq)]
      exact ih l

theorem length_foldl (L : List Nat) (F : List Nat → Nat → List Nat)
    (hF : ∀ l a, (F l a).length = l.length) (l : List Nat) :
    (L.foldl F l).length = l.length := by
  induction L generalizing l with
  | nil => rfl
  | cons a L ih => rw [List.foldl_cons, ih, hF]

theorem length_foldl_int (L : List Int) (F : List Nat → Int → List Nat)
    (hF : ∀ l a, (F l a).length = l.length) (l : List Nat) :
    (L.foldl F l).length = l.length := by
  induction L generalizing l with
  | nil => rfl
  | cons a L ih => rw [List.foldl_cons, ih, hF]

theorem index_decode {w x x' y y' : Nat} (hx : x < w) (hx' : x' < w)
    (h : y * w + x = y' * w + x') : x = x' ∧ y = y' := by
  have hw : 0 < w := by omega
  have e1 : (y * w + x) % w = x := by
    rw [Nat.add_comm, Nat.add_mul_mod_self_right, Nat.mod_eq_of_lt hx]
  have e2 : (y' * w + x') % w = x' := by
    rw [Nat.add_comm, Nat.add_mul_mod_self_right, Nat.mod_eq_of_lt hx']
  have hxx : x = x' := by rw [← e1, ← e2, h]
  refine ⟨hxx, ?_⟩
  have hyw : y * w = y' * w := by omega
  exact Nat.eq_of_mul_eq_mul_right hw hyw

theorem index_bound {w h x y : Nat} (hx : x < w) (hy : y < h) :
    y * w + x < w * h := by
  have h1 : y * w + x < (y + 1) * w := by
    rw [Nat.succ_mul]
    exact Nat.add_lt_add_left hx (y * w)
  have h2 : (y + 1) * w ≤ h * w := Nat.mul_le_mul_right w hy
  calc y * w + x < (y + 1) * w := h1
    _ ≤ h * w := h2
    _ = w * h := Nat.mul_comm h w

/-- The index list written by the rect_fill loops, in write order. -/
def rectIdxs (w h : Nat) (r : GraphikRect) : List Nat :=
  ((List.range r.height).filter
      (fun dy => decide ((usizeOfI32 r.y0 + dy) % 2 ^ 64 < h))).flatMap
    (fun dy =>
      ((List.range r.width).filter
          (fun dx => decide ((usizeOfI32 r.x0 + dx) % 2 ^ 64 < w))).map
        (fun dx => ((usizeOfI32 r.y0 + dy) % 2 ^ 64) * w + (usizeOfI32 r.x0 + dx) % 2 ^ 64))

theorem rectFillLoop_eq_setMany (w h : Nat) (r : GraphikRect) (buf : List Nat) :
    GraphikBuilder.rectFillLoop w h r buf = setMany buf r.color (rectIdxs w h r) := by
  unfold GraphikBuilder.rectFillLoop rectIdxs
  apply foldl_over_setMany (List.range r.height) _
    (fun dy => (usizeOfI32 r.y0 + dy) % 2 ^ 64 < h)
    (fun dy =>
      ((List.range r.width).filter
          (fun dx => decide ((usizeOfI32 r.x0 + dx) % 2 ^ 64 < w))).map
        (fun dx => ((usizeOfI32 r.y0 + dy) % 2 ^ 64) * w + (usizeOfI32 r.x0 + dx) % 2 ^ 64))
    r.color
  intro l dy
  by_cases hdy : (usizeOfI32 r.y0 + dy) % 2 ^ 64 < h
  · rw [if_pos hdy, if_pos hdy]
    exact foldl_setIf (List.range r.width) _ _ r.color l
  · rw [if_neg hdy, if_neg hdy]

theorem rectIdxs_mem (w h : Nat) (r : GraphikRect) (j : Nat) :
    j ∈ rectIdxs w h r ↔
      ∃ dy, dy < r.height ∧ (usizeOfI32 r.y0 + dy) % 2 ^ 64 < h ∧
        ∃ dx, dx < r.width ∧ (usizeOfI32 r.x0 + dx) % 2 ^ 64 < w ∧
          j = ((usizeOfI32 r.y0 + dy) % 2 ^ 64) * w + (usizeOfI32 r.x0 + dx) % 2 ^ 64 := by
  unfold rectIdxs
  simp only [List.mem_flatMap, List.mem_filter, List.mem_map, List.mem_range,
    decide_eq_true_eq]
  constructor
  · rintro ⟨dy, ⟨hdy, hdyh⟩, dx, ⟨hdx, hdxw⟩, hj⟩
    exact ⟨dy, hdy, hdyh, dx, hdx, hdxw, hj.symm⟩
  · rintro ⟨dy, hdy, hdyh, dx, hdx, hdxw, hj⟩
    exact ⟨dy, ⟨hdy, hdyh⟩, dx, ⟨hdx, hdxw⟩, hj.symm⟩

/-- C5. For a rectangle with center=false lying fully inside the
buffer, rect_fill colors exactly the box of the rectangle: the pixel at
(x, y) becomes the rectangle's color when (x, y) lies in
the box and keeps its old value otherwise. -/
theorem C5_rect_fill_exact_box (b : GraphikBuffer) (r : GraphikRect)
    (hc : r.center = false) (hx0 : 0 ≤ r.x0) (hy0 : 0 ≤ r.y0)
    (hxw : r.x0.toNat + r.width ≤ b.width) (hyh : r.y0.toNat + r.height ≤ b.height)
    (hlen : b.buffer.length = b.width * b.height)
    (hW : b.width < 2 ^ 64) (hH : b.height < 2 ^ 64)
    (x y : Nat) (hx : x < b.width) (hy : y < b.height) :
    ((GraphikBuilder.rect_fill b r).1.buffer)[y * b.width + x]? =
      if r.x0.toNat ≤ x ∧ x < r.x0.toNat + r.width ∧
          r.y0.toNat ≤ y ∧ y < r.y0.toNat + r.height
        then some r.color else b.buffer[y * b.width + x]? := by
  have hxlt : r.x0 < (2 ^ 64 : Int) := by
    have h1 : r.x0.toNat < 2 ^ 64 := by omega
    omega
  have hylt : r.y0 < (2 ^ 64 : Int) := by
    have h1 : r.y0.toNat < 2 ^ 64 := by omega
    omega
  have hux : usizeOfI32 r.x0 = r.x0.toNat := usizeOfI32_small hx0 hxlt
  have huy : usizeOfI32 r.y0 = r.y0.toNat := usizeOfI32_small hy0 hylt
  have hfill : (GraphikBuilder.rect_fill b r).1.buffer
      = GraphikBuilder.rectFillLoop b.width b.height r b.buffer := by
    simp [GraphikBuilder.rect_fill, hc]
  rw [hfill, rectFillLoop_eq_setMany, getElem?_setMany]
  by_cases hbox : r.x0.toNat ≤ x ∧ x < r.x0.toNat + r.width ∧
      r.y0.toNat ≤ y ∧ y < r.y0.toNat + r.height
  · rw [if_pos hbox, if_pos]
    refine ⟨?_, ?_⟩
    · rw [rectIdxs_mem]
      obtain ⟨h1, h2, h3, h4⟩ := hbox
      refine ⟨y - r.y0.toNat, by omega, ?_, x - r.x0.toNat, by omega, ?_, ?_⟩
      · rw [huy, Nat.mod_eq_of_lt (by omega)]
        omega
      · rw [hux, Nat.mod_eq_of_lt (by omega)]
        omega
      · rw [hux, huy, Nat.mod_eq_of_lt (by omega), Nat.mod_eq_of_lt (by omega)]
        have e1 : r.y0.toNat + (y - r.y0.toNat) = y := by omega
        have e2 : r.x0.toNat + (x - r.x0.toNat) = x := by omega
        rw [e1, e2]
    · rw [hlen]
      exact index_bound hx hy
  · rw [if_neg hbox, if_neg]
    intro ⟨hmem, _⟩
    rw [rectIdxs_mem] at hmem
    obtain ⟨dy, hdy, hdyh, dx, hdx, hdxw, hj⟩ := hmem
    rw [hux, huy] at hj
    rw [Nat.mod_eq_of_lt (by omega), Nat.mod_eq_of_lt (by omega)] at hj
    have hxw2 : r.x0.toNat + dx < b.width := by omega
    obtain ⟨hxe, hye⟩ := index_decode hx hxw2 hj
    exact hbox (by omega)

/-- C6. For a rectangle with center=true that fits in the buffer,
rect_fill rewrites the origin to ((width - rect.width) / 2,
(height - rect.height) / 2) with truncating division, and then runs the
fill loop from that rewritten rectangle. -/
theorem C6_rect_fill_centered (b : GraphikBuffer) (r : GraphikRect)
    (hc : r.center = true) (hw : r.width ≤ b.width) (hh : r.height ≤ b.height)
    (hW : b.width < 2 ^ 32) (hH : b.height < 2 ^ 32) :
    (GraphikBuilder.rect_fill b r).2.x0 = (((b.width - r.width) / 2 : Nat) : Int) ∧
    (GraphikBuilder.rect_fill b r).2.y0 = (((b.height - r.height) / 2 : Nat) : Int) ∧
    (GraphikBuilder.rect_fill b r).1.buffer
      = GraphikBuilder.rectFillLoop b.width b.height ((GraphikBuilder.rect_fill b r).2) b.buffer := by
  have hgc : ∀ canvas object : Nat, object ≤ canvas → canvas < 2 ^ 32 →
      get_center canvas object = (((canvas - object) / 2 : Nat) : Int) := by
    intro canvas object hle hlt
    unfold get_center
    have h1 : (canvas : Int) - (object : Int) = ((canvas - object : Nat) : Int) := by
      rw [Nat.cast_sub hle]
    rw [h1, Int.emod_eq_of_lt (by positivity) (by exact_mod_cast by omega)]
    rw [Int.toNat_natCast]
    exact i32OfUsize_small (by omega)
  refine ⟨?_, ?_, ?_⟩
  · simp [GraphikBuilder.rect_fill, hc, GraphikRect.origin, hgc b.width r.width hw hW]
  · simp [GraphikBuilder.rect_fill, hc, GraphikRect.origin, hgc b.height r.height hh hH]
  · simp [GraphikBuilder.rect_fill, hc]

/-- C7. fillSpan is the scanline write of both passes of
triangle_fill: it iterates x over the ascending inclusive range
s1..=s2 directly, with no min/max swap, so whenever the computed s1
exceeds s2 the range is empty and the scanline writes nothing. -/
theorem C7_fillSpan_empty_when_reversed (w color : Nat) (y s1 s2 : Int)
    (buf : List Nat) (h : s2 < s1) :
    GraphikBuilder.fillSpan w color y s1 s2 buf = buf := by
  unfold GraphikBuilder.fillSpan
  rw [intRangeIncl_eq_nil h]
  rfl

/-- Witness for C7 at a concrete reversed span inside triangle_fill's
scanline routine. -/
theorem C7_fillSpan_empty_when_reversed_witness :
    GraphikBuilder.fillSpan 8 1 2 6 4 (List.replicate 64 0) = List.replicate 64 0 :=
  C7_fillSpan_empty_when_reversed 8 1 2 6 4 (List.replicate 64 0) (by decide)

/-- C9. When center, vertical and horizontal are all set,
process_line_vertices applies only the vertical centering: both x
endpoints become width / 2, the y endpoints are untouched, and the
horizontal flag has no effect at all because it is only consulted when
the vertical flag is false. -/
theorem C9_line_both_flags_vertical_only (l : GraphikLine) (w h : Nat)
    (hc : l.center = true) (hv : l.vertical = true) (hh : l.horizontal = true)
    (hw : w < 2 ^ 32) :
    (GraphikBuilder.process_line_vertices l w h).x0 = ((w / 2 : Nat) : Int) ∧
    (GraphikBuilder.process_line_vertices l w h).x1 = ((w / 2 : Nat) : Int) ∧
    (GraphikBuilder.process_line_vertices l w h).y0 = l.y0 ∧
    (GraphikBuilder.process_line_vertices l w h).y1 = l.y1 ∧
    ((GraphikBuilder.process_line_vertices l w h).x0,
        (GraphikBuilder.process_line_vertices l w h).y0,
        (GraphikBuilder.process_line_vertices l w h).x1,
        (GraphikBuilder.process_line_vertices l w h).y1)
      = ((GraphikBuilder.process_line_vertices { l with horizontal := false } w h).x0,
        (GraphikBuilder.process_line_vertices { l with horizontal := false } w h).y0,
        (GraphikBuilder.process_line_vertices { l with horizontal := false } w h).x1,
        (GraphikBuilder.process_line_vertices { l with horizontal := false } w h).y1) := by
  have hcast : i32OfUsize (w / 2) = ((w / 2 : Nat) : Int) := i32OfUsize_small (by omega)
  refine ⟨?_, ?_, ?_, ?_, ?_⟩ <;>
    simp [GraphikBuilder.process_line_vertices, hc, hv, GraphikLine.setVertical, hcast]

/-- Witness for C9 at a concrete line with all three flags set. -/
theorem C9_line_both_flags_vertical_only_witness :
    (GraphikBuilder.process_line_vertices ⟨1, 2, 3, 4, 9, true, true, true⟩ 8 6).x0 = 4 ∧
    (GraphikBuilder.process_line_vertices ⟨1, 2, 3, 4, 9, true, true, true⟩ 8 6).x1 = 4 ∧
    (GraphikBuilder.process_line_vertices ⟨1, 2, 3, 4, 9, true, true, true⟩ 8 6).y0 = 2 ∧
    (GraphikBuilder.process_line_vertices ⟨1, 2, 3, 4, 9, true, true, true⟩ 8 6).y1 = 4 ∧
    ((GraphikBuilder.process_line_vertices ⟨1, 2, 3, 4, 9, true, true, true⟩ 8 6).x0,
        (GraphikBuilder.process_line_vertices ⟨1, 2, 3, 4, 9, true, true, true⟩ 8 6).y0,
        (GraphikBuilder.process_line_vertices ⟨1, 2, 3, 4, 9, true, true, true⟩ 8 6).x1,
        (GraphikBuilder.process_line_vertices ⟨1, 2, 3, 4, 9, true, true, true⟩ 8 6).y1)
      = ((GraphikBuilder.process_line_vertices ⟨1, 2, 3, 4, 9, true, true, false⟩ 8 6).x0,
        (GraphikBuilder.process_line_vertices ⟨1, 2, 3, 4, 9, true, true, false⟩ 8 6).y0,
        (GraphikBuilder.process_line_vertices ⟨1, 2, 3, 4, 9, true, true, false⟩ 8 6).x1,
        (GraphikBuilder.process_line_vertices ⟨1, 2, 3, 4, 9, true, true, false⟩ 8 6).y1) :=
  C9_line_both_flags_vertical_only ⟨1, 2, 3, 4, 9, true, true, true⟩ 8 6 rfl rfl rfl (by decide)

/-- C1 evaluation. In an 8 by 8 buffer, the circle centered at (3, 3)
with radius 2 and color 1 leaves the pixel (5, 3) (buffer index 29) at
its old value 0 even though its squared distance from the center is
exactly radius squared, because the scan is over the half-open bounding
box; the symmetric pixel (1, 3) (index 25) at the same distance is
colored. -/
theorem C1_circle_boundary_pixel_missed :
    ((GraphikBuilder.circle_fill (GraphikBuffer.new 8 8)
        ⟨3, 3, 2, 1, false⟩).1.buffer)[29]? = some 0 ∧
    ((5 - 3 : Int) * (5 - 3) + (3 - 3) * (3 - 3) ≤ 2 * 2) ∧
    ((GraphikBuilder.circle_fill (GraphikBuffer.new 8 8)
        ⟨3, 3, 2, 1, false⟩).1.buffer)[25]? = some 1 := by
  exact ⟨by decide, by decide, by decide⟩

/-- C2 evaluation. The Bresenham loop exits as soon as the current
point equals the endpoint, before plotting it: the line from (0, 0) to
(5, 0) in an 8 by 8 buffer colors only the 5 pixels (0, 0)..(4, 0),
leaving (5, 0) at 0, and the diagonal from (0, 0) to (3, 3) colors only
(0, 0), (1, 1), (2, 2), leaving (3, 3) at 0. -/
theorem C2_line_endpoint_missed :
    ((GraphikBuilder.line_draw (GraphikBuffer.new 8 8)
        ⟨0, 0, 5, 0, 1, false, false, false⟩).1.map (fun b => b.buffer.take 6))
      = some [1, 1, 1, 1, 1, 0] ∧
    ((GraphikBuilder.line_draw (GraphikBuffer.new 8 8)
        ⟨0, 0, 3, 3, 1, false, false, false⟩).1.map
          (fun b => [b.buffer[0]?, b.buffer[9]?, b.buffer[18]?, b.buffer[27]?]))
      = some [some 1, some 1, some 1, some 0] := by
  exact ⟨by decide, by decide⟩

/-- C3 evaluation. The triangle (0, 0), (0, 5), (5, 5) has sorted
vertices y1 = 0 <= y2 = 5 <= y3 = 5; in pass 2 the guard dy12 = 5 is
non-zero while the divisor dy32 = y2 - y3 = 0, so the source divides by
zero (a Rust panic, modelled as none). -/
theorem C3_triangle_pass2_division_by_zero :
    GraphikBuilder.triangle_fill (GraphikBuffer.new 8 8) ⟨0, 0, 0, 5, 5, 5, 1⟩ = none ∧
    ((0 : Int) ≤ 5 ∧ (5 : Int) ≤ 5) := by
  refine ⟨?_, by decide⟩
  rfl

/-- Witness for C5: the rectangle at (1, 1) of size 2 by 3 in a 6 by 6
buffer colors the in-box pixel (1, 1). -/
theorem C5_rect_fill_exact_box_witness :
    ((GraphikBuilder.rect_fill (GraphikBuffer.new 6 6)
        ⟨1, 1, 2, 3, 9, false⟩).1.buffer)[1 * 6 + 1]? = some 9 := by
  have h := C5_rect_fill_exact_box (GraphikBuffer.new 6 6) ⟨1, 1, 2, 3, 9, false⟩
    rfl (by decide) (by decide) (by decide) (by decide) (by decide) (by decide) (by decide)
    1 1 (by decide) (by decide)
  rw [if_pos (by decide)] at h
  exact h

/-- Witness for C6: a 4 by 2 centered rectangle in a 10 by 8 buffer
gets origin (3, 3). -/
theorem C6_rect_fill_centered_witness :
    (GraphikBuilder.rect_fill (GraphikBuffer.new 10 8) ⟨0, 0, 4, 2, 7, true⟩).2.x0 = 3 ∧
    (GraphikBuilder.rect_fill (GraphikBuffer.new 10 8) ⟨0, 0, 4, 2, 7, true⟩).2.y0 = 3 ∧
    (GraphikBuilder.rect_fill (GraphikBuffer.new 10 8) ⟨0, 0, 4, 2, 7, true⟩).1.buffer
      = GraphikBuilder.rectFillLoop 10 8
          ((GraphikBuilder.rect_fill (GraphikBuffer.new 10 8) ⟨0, 0, 4, 2, 7, true⟩).2)
          (GraphikBuffer.new 10 8).buffer := by
  obtain ⟨h1, h2, h3⟩ := C6_rect_fill_centered (GraphikBuffer.new 10 8) ⟨0, 0, 4, 2, 7, true⟩
    rfl (by decide) (by decide) (by decide) (by decide)
  exact ⟨h1.trans (by decide), h2.trans (by decide), h3⟩

/-! Serializer lemmas. -/

theorem writePixelsLoop_all_ok (writeOk : Nat → Bool) (ps : List Nat) (i : Nat)
    (acc : List Nat) (h : ∀ j, i ≤ j → j < i + ps.length → writeOk j = true) :
    writePixelsLoop writeOk ps i acc = (Except.ok (), acc ++ ps.flatMap pixelBytes) := by
  induction ps generalizing i acc with
  | nil => simp [writePixelsLoop]
  | cons p rest ih =>
    have hi : writeOk i = true := h i (Nat.le_refl i) (by simp only [List.length_cons]; omega)
    rw [writePixelsLoop, if_pos hi,
      ih (i + 1) _ (fun j h1 h2 =>
        h j (by omega) (by simp only [List.length_cons]; omega))]
    simp [List.flatMap_cons, List.append_assoc]

theorem writePixelsLoop_first_fail (writeOk : Nat → Bool) (ps : List Nat) (i : Nat)
    (acc : List Nat) (k : Nat) (hk : k < ps.length) (hfail : writeOk (i + k) = false)
    (hok : ∀ j, i ≤ j → j < i + k → writeOk j = true) :
    writePixelsLoop writeOk ps i acc
      = (Except.error Error.FileWriteError, acc ++ (ps.take k).flatMap pixelBytes) := by
  induction ps generalizing i acc k with
  | nil => simp at hk
  | cons p rest ih =>
    cases k with
    | zero =>
      rw [writePixelsLoop, if_neg (by simpa using hfail)]
      simp
    | succ k' =>
      have hi : writeOk i = true := hok i (Nat.le_refl i) (by omega)
      rw [writePixelsLoop, if_pos hi,
        ih (i + 1) _ k' (by simp only [List.length_cons] at hk; omega)
          (by rw [show i + 1 + k' = i + (k' + 1) by omega]; exact hfail)
          (fun j h1 h2 => hok j (by omega) (by omega))]
      simp [List.take_succ_cons, List.flatMap_cons, List.append_assoc]

/-- The file content the source leaves behind when the i-th write_all
call is the first to fail: nothing for i = 0 (the header write), else
the header plus the first i - 1 pixels. -/
def fileBytesBefore (b : GraphikBuffer) : Nat → List Nat
  | 0 => []
  | i + 1 => headerBytes b.width b.height ++ (b.buffer.take i).flatMap pixelBytes

/-- C4. On success save_as_ppm writes exactly the ASCII header
"P6\n{width} {height} 255\n" followed by 3 bytes per pixel in buffer
(row-major) order, each pixel contributing bits [0:8), [8:16), [16:24)
in that order; concretely, an 8 by 8 buffer filled with color 0x0000FF
serializes to the header "P6\n8 8 255\n" followed by 64 repetitions of
bytes FF 00 00. -/
theorem C4_ppm_output :
    (∀ (b : GraphikBuffer) (fs : FsOutcome), fs.openOk = true →
      (∀ i, i ≤ b.buffer.length → fs.writeOk i = true) →
      (GraphikBuilder.save_as_ppm b fs).2
        = headerBytes b.width b.height ++ b.buffer.flatMap pixelBytes) ∧
    ppmBytes (GraphikBuilder.fill (GraphikBuffer.new 8 8) 255)
      = [80, 54, 10, 56, 32, 56, 32, 50, 53, 53, 10]
          ++ (List.replicate 64 ([255, 0, 0] : List Nat)).flatten := by
  constructor
  · intro b fs ho hw
    have h0 : fs.writeOk 0 = true := hw 0 (Nat.zero_le _)
    rw [GraphikBuilder.save_as_ppm, if_pos ho, if_pos h0,
      writePixelsLoop_all_ok fs.writeOk b.buffer 1 _ (fun j h1 h2 => hw j (by omega))]
  · decide

/-- Witness for C4 on a concrete 2 by 2 buffer with an all-successful
file system. -/
theorem C4_ppm_output_witness :
    (GraphikBuilder.save_as_ppm (GraphikBuilder.fill (GraphikBuffer.new 2 2) 255)
        ⟨true, fun _ => true⟩).2
      = headerBytes 2 2
          ++ (GraphikBuilder.fill (GraphikBuffer.new 2 2) 255).buffer.flatMap pixelBytes :=
  C4_ppm_output.1 (GraphikBuilder.fill (GraphikBuffer.new 2 2) 255)
    ⟨true, fun _ => true⟩ rfl (fun _ _ => rfl)

/-- C8. save_as_ppm returns FileOpenError exactly when the open fails,
and then nothing is written; when the open succeeds and every write
completes it succeeds with the full PPM byte stream; when the open
succeeds and the i-th write_all call is the first to fail it returns
FileWriteError immediately, leaving the bytes of the earlier writes in
the file with no cleanup. -/
theorem C8_save_as_ppm_errors (b : GraphikBuffer) (fs : FsOutcome) :
    (fs.openOk = false →
      GraphikBuilder.save_as_ppm b fs = (Except.error Error.FileOpenError, [])) ∧
    (fs.openOk = true → (∀ i, i ≤ b.buffer.length → fs.writeOk i = true) →
      GraphikBuilder.save_as_ppm b fs = (Except.ok (), ppmBytes b)) ∧
    (fs.openOk = true → ∀ i, i ≤ b.buffer.length → fs.writeOk i = false →
      (∀ j, j < i → fs.writeOk j = true) →
      GraphikBuilder.save_as_ppm b fs
        = (Except.error Error.FileWriteError, fileBytesBefore b i)) := by
  refine ⟨?_, ?_, ?_⟩
  · intro h
    rw [GraphikBuilder.save_as_ppm, if_neg (by simp [h])]
  · intro ho hw
    have h0 : fs.writeOk 0 = true := hw 0 (Nat.zero_le _)
    rw [GraphikBuilder.save_as_ppm, if_pos ho, if_pos h0,
      writePixelsLoop_all_ok fs.writeOk b.buffer 1 _ (fun j h1 h2 => hw j (by omega))]
    rfl
  · intro ho i hi hfail hprev
    cases i with
    | zero =>
      rw [GraphikBuilder.save_as_ppm, if_pos ho, if_neg (by simpa using hfail)]
      rfl
    | succ k =>
      have h0 : fs.writeOk 0 = true := hprev 0 (Nat.succ_pos k)
      rw [GraphikBuilder.save_as_ppm, if_pos ho, if_pos h0,
        writePixelsLoop_first_fail fs.writeOk b.buffer 1 _ k (by omega)
          (by rw [show 1 + k = k + 1 by omega]; exact hfail)
          (fun j h1 h2 => hprev j (by omega))]
      rfl

/-- Witness for C8 on a concrete 2 by 2 buffer under the three file
system outcomes: open failure, full success, and a failure at the
third write_all call. -/
theorem C8_save_as_ppm_errors_witness :
    GraphikBuilder.save_as_ppm (GraphikBuffer.new 2 2) ⟨false, fun _ => true⟩
      = (Except.error Error.FileOpenError, []) ∧
    GraphikBuilder.save_as_ppm (GraphikBuffer.new 2 2) ⟨true, fun _ => true⟩
      = (Except.ok (), ppmBytes (GraphikBuffer.new 2 2)) ∧
    GraphikBuilder.save_as_ppm (GraphikBuffer.new 2 2) ⟨true, fun i => decide (i < 2)⟩
      = (Except.error Error.FileWriteError, fileBytesBefore (GraphikBuffer.new 2 2) 2) :=
  ⟨(C8_save_as_ppm_errors (GraphikBuffer.new 2 2) ⟨false, fun _ => true⟩).1 rfl,
    (C8_save_as_ppm_errors (GraphikBuffer.new 2 2) ⟨true, fun _ => true⟩).2.1 rfl
      (fun _ _ => rfl),
    (C8_save_as_ppm_errors (GraphikBuffer.new 2 2) ⟨true, fun i => decide (i < 2)⟩).2.2 rfl
      2 (by decide) (by decide) (fun j hj => decide_eq_true hj)⟩

/-! Length preservation lemmas for C10. -/

theorem length_rectFillLoop (w h : Nat) (r : GraphikRect) (buf : List Nat) :
    (GraphikBuilder.rectFillLoop w h r buf).length = buf.length := by
  rw [rectFillLoop_eq_setMany, length_setMany]

theorem length_circleFillLoop (w h : Nat) (c : GraphikCircle) (buf : List Nat) :
    (GraphikBuilder.circleFillLoop w h c buf).length = buf.length := by
  simp only [GraphikBuilder.circleFillLoop]
  apply length_foldl_int
  intro l y
  by_cases hy : 0 ≤ y ∧ y < (h : Int)
  · rw [if_pos hy]
    apply length_foldl_int
    intro l2 x
    by_cases hx : 0 ≤ x ∧ x < (w : Int)
    · rw [if_pos hx]
      split
      · exact List.length_set _ _ _
      · rfl
    · rw [if_neg hx]
  · rw [if_neg hy]

theorem length_fillSpan (w color : Nat) (y s1 s2 : Int) (buf : List Nat) :
    (GraphikBuilder.fillSpan w color y s1 s2 buf).length = buf.length := by
  unfold GraphikBuilder.fillSpan
  apply length_foldl_int
  intro l x
  split
  · exact List.length_set _ _ _
  · rfl

theorem length_pass1Loop (w h : Nat) (t : GraphikTriangle) (ys : List Int)
    (buf : List Nat) :
    (GraphikBuilder.pass1Loop w h t ys buf).length = buf.length := by
  induction ys generalizing buf with
  | nil => rfl
  | cons y ys ih =>
    rw [GraphikBuilder.pass1Loop]
    split
    · rw [ih, length_fillSpan]
    · rw [ih]

theorem length_pass2Loop (w h : Nat) (t : GraphikTriangle) (ys : List Int)
    (buf out : List Nat)
    (hsome : GraphikBuilder.pass2Loop w h t ys buf = some out) :
    out.length = buf.length := by
  induction ys generalizing buf with
  | nil =>
    simp only [GraphikBuilder.pass2Loop, Option.some.injEq] at hsome
    rw [← hsome]
  | cons y ys ih =>
    rw [GraphikBuilder.pass2Loop] at hsome
    by_cases hy : 0 ≤ y ∧ y < (h : Int)
    · rw [if_pos hy] at hsome
      by_cases h12 : t.y2 - t.y1 ≠ 0
      · rw [if_pos h12] at hsome
        by_cases h32 : t.y2 - t.y3 = 0
        · rw [if_pos h32] at hsome
          exact absurd hsome (by simp)
        · rw [if_neg h32] at hsome
          rw [ih _ hsome, length_fillSpan]
      · rw [if_neg h12] at hsome
        rw [ih _ hsome, length_fillSpan]
    · rw [if_neg hy] at hsome
      exact ih _ hsome

theorem length_lineLoop (w h color : Nat) (x1 y1 dx dy sx sy : Int) (fuel : Nat)
    (x0 y0 err : Int) (buf out : List Nat)
    (hsome : GraphikBuilder.lineLoop w h color x1 y1 dx dy sx sy fuel x0 y0 err buf
      = some out) :
    out.length = buf.length := by
  induction fuel generalizing x0 y0 err buf with
  | zero =>
    rw [GraphikBuilder.lineLoop] at hsome
    split at hsome
    · simp only [Option.some.injEq] at hsome
      rw [← hsome]
    · exact absurd hsome (by simp)
  | succ fuel ih =>
    rw [GraphikBuilder.lineLoop] at hsome
    split at hsome
    · simp only [Option.some.injEq] at hsome
      rw [← hsome]
    · have h2 := ih _ _ _ _ hsome
      rw [h2]
      split
      · exact List.length_set _ _ _
      · rfl

/-- Dimension preservation between an input and an output buffer:
width and height are unchanged and the pixel list keeps its length. -/
def preservesDims (b b' : GraphikBuffer) : Prop :=
  b'.width = b.width ∧ b'.height = b.height ∧ b'.buffer.length = b.buffer.length

/-- C10. GraphikBuffer::new establishes the invariant that the pixel
list has length width * height, and every mutating operation of the
builder (fill, rect_fill, circle_fill, triangle_fill when it returns,
line_draw when it returns) keeps width, height and the pixel list
length unchanged; save_as_ppm only reads the buffer. -/
theorem C10_dims_invariant :
    (∀ w h : Nat, (GraphikBuffer.new w h).width = w ∧ (GraphikBuffer.new w h).height = h ∧
      (GraphikBuffer.new w h).buffer.length = w * h) ∧
    (∀ (b : GraphikBuffer) (color : Nat), preservesDims b (GraphikBuilder.fill b color)) ∧
    (∀ (b : GraphikBuffer) (r : GraphikRect),
      preservesDims b (GraphikBuilder.rect_fill b r).1) ∧
    (∀ (b : GraphikBuffer) (c : GraphikCircle),
      preservesDims b (GraphikBuilder.circle_fill b c).1) ∧
    (∀ (b : GraphikBuffer) (t : GraphikTriangle) (b' : GraphikBuffer),
      GraphikBuilder.triangle_fill b t = some b' → preservesDims b b') ∧
    (∀ (b : GraphikBuffer) (l : GraphikLine) (b' : GraphikBuffer),
      (GraphikBuilder.line_draw b l).1 = some b' → preservesDims b b') := by
  refine ⟨?_, ?_, ?_, ?_, ?_, ?_⟩
  · intro w h
    exact ⟨rfl, rfl, List.length_replicate _ _⟩
  · intro b color
    exact ⟨rfl, rfl, List.length_map _ _⟩
  · intro b r
    exact ⟨rfl, rfl, length_rectFillLoop _ _ _ _⟩
  · intro b c
    exact ⟨rfl, rfl, length_circleFillLoop _ _ _ _⟩
  · intro b t b' hsome
    rw [GraphikBuilder.triangle_fill] at hsome
    split at hsome
    · exact absurd hsome (by simp)
    · rename_i buf2 hmatch
      simp only [Option.some.injEq] at hsome
      rw [← hsome]
      exact ⟨rfl, rfl, (length_pass2Loop _ _ _ _ _ _ hmatch).trans (length_pass1Loop _ _ _ _ _)⟩
  · intro b l b' hsome
    rw [GraphikBuilder.line_draw] at hsome
    split at hsome
    · exact absurd hsome (by simp)
    · rename_i buf hmatch
      simp only [Option.some.injEq] at hsome
      rw [← hsome]
      exact ⟨rfl, rfl, length_lineLoop _ _ _ _ _ _ _ _ _ _ _ _ _ _ _ hmatch⟩

/-- Witness for C10: all six conjuncts instantiated on a 2 by 2
buffer, with concrete successful triangle and line runs. -/
theorem C10_dims_invariant_witness :
    (GraphikBuffer.new 2 2).buffer.length = 2 * 2 ∧
    preservesDims (GraphikBuffer.new 2 2) (GraphikBuilder.fill (GraphikBuffer.new 2 2) 5) ∧
    preservesDims (GraphikBuffer.new 2 2)
      (GraphikBuilder.rect_fill (GraphikBuffer.new 2 2) ⟨0, 0, 1, 1, 5, false⟩).1 ∧
    preservesDims (GraphikBuffer.new 2 2)
      (GraphikBuilder.circle_fill (GraphikBuffer.new 2 2) ⟨1, 1, 1, 5, false⟩).1 ∧
    preservesDims (GraphikBuffer.new 2 2) ⟨2, 2, [7, 0, 0, 0]⟩ ∧
    preservesDims (GraphikBuffer.new 2 2) ⟨2, 2, [5, 5, 0, 0]⟩ :=
  ⟨(C10_dims_invariant.1 2 2).2.2,
    C10_dims_invariant.2.1 (GraphikBuffer.new 2 2) 5,
    C10_dims_invariant.2.2.1 (GraphikBuffer.new 2 2) ⟨0, 0, 1, 1, 5, false⟩,
    C10_dims_invariant.2.2.2.1 (GraphikBuffer.new 2 2) ⟨1, 1, 1, 5, false⟩,
    C10_dims_invariant.2.2.2.2.1 (GraphikBuffer.new 2 2) ⟨0, 0, 0, 0, 0, 0, 7⟩
      ⟨2, 2, [7, 0, 0, 0]⟩ (by decide),
    C10_dims_invariant.2.2.2.2.2 (GraphikBuffer.new 2 2) ⟨0, 0, 2, 0, 5, false, false, false⟩
      ⟨2, 2, [5, 5, 0, 0]⟩ (by decide)⟩

end Graphik
